import Mathlib

/-!
Verification of the wait-times exporter (`src/main.go`).

The program is a linear script: load configuration from the environment
(after a `.env` load), open a PostgreSQL connection, run one JSON
aggregation query per view, write one JSON snapshot file per view, then
stage/commit/push the output directory with git.

We embed it shallowly: every external interaction (environment lookup,
`godotenv.Load`, `sql.Open`/`Ping`, `MkdirAll`, per-view query results,
`json.Indent`, `os.WriteFile`, `os.Getwd`/`os.Chdir`, the three git
sub-processes) is an oracle packaged in a `World` record, and each Go
function becomes a Lean function from the `World` (plus its Go arguments)
to its result together with the list of `Effect`s it performs, in order.
Machine integers are modelled as `Int` (Go's `strconv.Atoi` range check on
64-bit overflow is not modelled; no claim depends on it). Strings model
Go byte slices; all data handled here is text.
-/

/-- Observable effects of the program, in the order they are performed.
`exit` models `os.Exit`; the source never calls it, and Go's `main`
returning normally yields process exit status 0. -/
inductive Effect where
  | print (s : String)
  | dbOpen (connStr : String)
  | dbPing
  | mkdirAll (dir : String)
  | dbQuery (q : String)
  | writeFile (path : String) (content : String)
  | chdir (path : String)
  | exec (argv : List String)
  | exit (code : Nat)
deriving DecidableEq, Repr

/-- The external world the run interacts with: one oracle per external
interaction of `main.go`.  `dotenvRes` is the result of `godotenv.Load`,
returning the process environment after a successful load (models that
`.env` populates unset variables).  `query view` is the result of scanning
`SELECT json_agg(t) FROM (SELECT * FROM view) t` into a byte slice:
`.ok none` is a database NULL (scan leaves the slice nil), `.ok (some s)`
the raw JSON bytes, `.error e` a query error.  `validRaw` is
`encoding/json`'s syntactic validity check of a raw message inside
`json.Marshal`; `indentRes` is `json.Indent`.  `chdirOk p` tells whether
`os.Chdir p` succeeds; `cwd` is the working directory at process start.
`gitAdd`/`gitCommit`/`gitPush` are the (success, combined output) of the
three git sub-processes. -/
structure World where
  dotenvRes : Except String (String → Option String)
  openOk : Bool
  pingOk : Bool
  mkdirOk : Bool
  now : Nat × Nat × Nat
  query : String → Except String (Option String)
  validRaw : String → Bool
  indentRes : String → Except String String
  writeOk : String → Bool
  getwdFails : Bool
  cwd : String
  chdirOk : String → Bool
  gitAdd : Bool × String
  gitCommit : Bool × String
  gitPush : Bool × String

/-- Go `os.Getenv`: empty string when the variable is unset. -/
def getenv (env : String → Option String) (key : String) : String :=
  (env key).getD ""

/-- `getEnvWithDefault` from `main.go` (uses `os.LookupEnv`). -/
def getEnvWithDefault (env : String → Option String) (key defaultValue : String) : String :=
  match env key with
  | some value => value
  | none => defaultValue

/-- Accumulate the value of a digit run; `none` on the first non-digit. -/
def digitsValAux : List Char → Nat → Option Nat
  | [], acc => some acc
  | c :: cs, acc =>
    if c.isDigit then digitsValAux cs (acc * 10 + (c.toNat - 48)) else none

/-- Value of a non-empty all-digit string, else `none`. -/
def parseNatDigits : List Char → Option Nat
  | [] => none
  | l => digitsValAux l 0

/-- Go `strconv.Atoi`: optional sign followed by at least one digit;
anything else (including the empty string) is an error.  The 64-bit
range check is not modelled. -/
def Atoi (s : String) : Except String Int :=
  match s.toList with
  | '+' :: rest =>
    match parseNatDigits rest with
    | some n => .ok (Int.ofNat n)
    | none => .error ("parsing \"" ++ s ++ "\": invalid syntax")
  | '-' :: rest =>
    match parseNatDigits rest with
    | some n => .ok (-(Int.ofNat n))
    | none => .error ("parsing \"" ++ s ++ "\": invalid syntax")
  | l =>
    match parseNatDigits l with
    | some n => .ok (Int.ofNat n)
    | none => .error ("parsing \"" ++ s ++ "\": invalid syntax")

/-- `Config` from `main.go`. -/
structure Config where
  Host : String
  Port : Int
  User : String
  Password : String
  DBName : String
  SSLMode : String
  OutputDir : String
deriving DecidableEq, Repr

/-- `loadConfig` from `main.go`: load `.env` (fatal on failure), parse
`DB_PORT` (fatal on failure), then build the record with the documented
defaults. -/
def loadConfig (w : World) : Except String Config :=
  match w.dotenvRes with
  | .error e => .error ("error loading .env file: " ++ e)
  | .ok env =>
    match Atoi (getenv env "DB_PORT") with
    | .error e => .error ("invalid DB_PORT: " ++ e)
    | .ok port =>
      .ok { Host := getEnvWithDefault env "DB_HOST" "localhost"
            Port := port
            User := getEnvWithDefault env "DB_USER" "postgres"
            Password := getEnvWithDefault env "DB_PASSWORD" ""
            DBName := getEnvWithDefault env "DB_NAME" "hospital_db"
            SSLMode := getEnvWithDefault env "DB_SSLMODE" "disable"
            OutputDir := getEnvWithDefault env "OUTPUT_DIR" "data_exports" }

/-- Digit character for `n < 10`. -/
def digitChar (n : Nat) : Char := Char.ofNat (48 + n)

/-- `time.Now().Format("2006-01-02")`: zero-padded 4-digit year,
2-digit month and day (faithful for the in-range dates `time.Now`
produces, i.e. year below 10000). -/
def formatDate : Nat × Nat × Nat → String
  | (y, m, d) =>
    String.mk [digitChar (y / 1000 % 10), digitChar (y / 100 % 10),
               digitChar (y / 10 % 10), digitChar (y % 10), '-',
               digitChar (m / 10 % 10), digitChar (m % 10), '-',
               digitChar (d / 10 % 10), digitChar (d % 10)]

/-- Checks the `YYYY-MM-DD` shape: ten characters, digits with dashes at
positions 4 and 7. -/
def isYMDShape (s : String) : Bool :=
  match s.toList with
  | [a, b, c, d, h1, e, f, h2, g, h] =>
    a.isDigit && b.isDigit && c.isDigit && d.isDigit && (h1 == '-') &&
    e.isDigit && f.isDigit && (h2 == '-') && g.isDigit && h.isDigit
  | _ => false

/-- JSON values; numbers are kept as their exact source text, so that no
binary/decimal coercion can lose information. -/
inductive Json where
  | null
  | bool (b : Bool)
  | num (s : String)
  | str (s : String)
  | arr (elems : List Json)
  | obj (fields : List (String × Json))
deriving Repr

/-- Escape one character as Go's `encoding/json` string encoder does for
the characters exercised here (quote, backslash, the common control
characters).  Go additionally substitutes `\u`-escapes for other control
characters and for HTML-sensitive characters; those substitutions are
value-preserving and not modelled. -/
def escChar (c : Char) : String :=
  if c = '"' then "\\\""
  else if c = '\\' then "\\\\"
  else if c = '\n' then "\\n"
  else if c = '\t' then "\\t"
  else if c = '\r' then "\\r"
  else String.singleton c

/-- Escape a list of characters. -/
def encodeChars : List Char → String
  | [] => ""
  | c :: cs => escChar c ++ encodeChars cs

/-- JSON string literal encoding. -/
def encodeString (s : String) : String :=
  "\"" ++ encodeChars s.toList ++ "\""

mutual

/-- Compact (whitespace-free) serialization of a JSON value, with
object fields in the order given. -/
def Json.render : Json → String
  | .null => "null"
  | .bool b => if b then "true" else "false"
  | .num s => s
  | .str s => encodeString s
  | .arr elems => "[" ++ renderElems elems ++ "]"
  | .obj fields => "\x7b" ++ renderFields fields ++ "\x7d"

/-- Comma-separated rendering of array elements. -/
def renderElems : List Json → String
  | [] => ""
  | [x] => Json.render x
  | x :: xs => Json.render x ++ "," ++ renderElems xs

/-- Comma-separated rendering of object fields. -/
def renderFields : List (String × Json) → String
  | [] => ""
  | [(k, v)] => encodeString k ++ ":" ++ Json.render v
  | (k, v) :: fs => encodeString k ++ ":" ++ Json.render v ++ "," ++ renderFields fs

end

/-- Top-level keys of a JSON object (empty for non-objects). -/
def Json.topKeys : Json → List String
  | .obj fields => fields.map Prod.fst
  | _ => []

/-- `addExportDateToJSON` from `main.go` on its success path:
`json.Marshal` of the wrapper map emits keys in sorted order
(`"data" < "export_date"`), injects the `json.RawMessage` bytes as
already-serialized JSON (no parse into a typed intermediate), and
string-encodes the date.  Output:
`\x7b"data":<data>,"export_date":"<date>"\x7d`.
(Go also compacts the raw message and applies value-preserving
HTML/`\u` escaping; both are identities on the compact, escape-free
bytes considered here and are not modelled.)  The failure case — the
raw message failing `encoding/json`'s validity scan — is threaded
through `World.validRaw` at the call site. -/
def addExportDateToJSON (data date : String) : String :=
  "\x7b" ++ encodeString "data" ++ ":" ++ data ++ "," ++ encodeString "export_date" ++ ":" ++
    encodeString date ++ "\x7d"

/-- The hardcoded view list from `main.go`. -/
def views : List String :=
  ["hospital_seven_avg_change", "daily_wait_time_stats", "monthly_avg_wait_times"]

/-- The per-view aggregation query text. -/
def viewQuery (view : String) : String :=
  "SELECT json_agg(t) FROM (SELECT * FROM " ++ view ++ ") t"

/-- `filepath.Join(outputDir, view + ".json")` for a plain directory and
file name (no cleaning needed). -/
def viewPath (dir view : String) : String :=
  dir ++ "/" ++ view ++ ".json"

/-- Lines 120-123 of `main.go`: a nil scan result (database NULL) is
replaced by the empty JSON array. -/
def normalizeNull : Option String → String
  | none => "[]"
  | some s => s

/-- One iteration of the per-view loop in `main` (lines 109-149): query,
NULL-normalize, wrap with the export date, pretty-print, write; each
failure prints and abandons only this view (`continue`). -/
def processView (w : World) (outputDir date view : String) : List Effect :=
  Effect.dbQuery (viewQuery view) ::
  match w.query view with
  | .error e => [Effect.print ("Error querying view " ++ view ++ ": " ++ e)]
  | .ok res =>
    let jsonData := normalizeNull res
    if w.validRaw jsonData then
      match w.indentRes (addExportDateToJSON jsonData date) with
      | .error e => [Effect.print ("Error formatting JSON for " ++ view ++ ": " ++ e)]
      | .ok pretty =>
        if w.writeOk (viewPath outputDir view) then
          [Effect.writeFile (viewPath outputDir view) pretty,
           Effect.print ("Successfully exported " ++ view ++ " to " ++ viewPath outputDir view)]
        else
          [Effect.print ("Error writing file " ++ viewPath outputDir view ++ ": write error")]
    else
      [Effect.print ("Error adding date to JSON for " ++ view ++ ": json marshal error")]

/-- `p` is a prefix of `l`. -/
def listStarts : List Char → List Char → Bool
  | [], _ => true
  | _ :: _, [] => false
  | p :: ps, c :: cs => p == c && listStarts ps cs

/-- `pat` occurs as a contiguous sublist of the second argument. -/
def listHasSub (pat : List Char) : List Char → Bool
  | [] => listStarts pat []
  | c :: cs => listStarts pat (c :: cs) || listHasSub pat cs

/-- Go `bytes.Contains`: substring test on the byte/character level. -/
def strContains (hay pat : String) : Bool :=
  listHasSub pat.toList hay.toList

/-- String prefix test on the character level. -/
def strStarts (pat s : String) : Bool :=
  listStarts pat.toList s.toList

/-- Lines 185-213 of `gitCommitAndPush`: the three git sub-processes, run
with the repository as working directory.  `git add .` failure is fatal;
a `git commit` failure whose combined output contains the bytes
`"nothing to commit"` is reported as success and ends the function
(no push); any other commit failure is fatal; then `git push`, whose
failure is fatal.  Returns the function result and the effects. -/
def gitSteps (w : World) (commitMessage : String) : Except String Unit × List Effect :=
  match w.gitAdd with
  | (false, out) =>
    (.error ("git add failed, output: " ++ out), [Effect.exec ["git", "add", "."]])
  | (true, _) =>
    let pre := [Effect.exec ["git", "add", "."],
                Effect.print "Added files to Git staging area"]
    let commitMsg := "Data export " ++ commitMessage
    let commitE := Effect.exec ["git", "commit", "-m", commitMsg]
    match w.gitCommit with
    | (false, out) =>
      if strContains out "nothing to commit" then
        (.ok (), pre ++ [commitE, Effect.print "Nothing to commit, working tree clean"])
      else
        (.error ("git commit failed, output: " ++ out), pre ++ [commitE])
    | (true, _) =>
      let pre2 := pre ++ [commitE,
        Effect.print ("Committed changes with message: " ++ commitMsg)]
      match w.gitPush with
      | (false, out) =>
        (.error ("git push failed, output: " ++ out), pre2 ++ [Effect.exec ["git", "push"]])
      | (true, _) =>
        (.ok (), pre2 ++ [Effect.exec ["git", "push"],
                          Effect.print "Pushed changes to remote repository"])

/-- `gitCommitAndPush` from `main.go`.  `cwd` is the working directory on
entry (`os.Getwd`).  On a successful change into `repoPath` the deferred
`os.Chdir(cwd)` runs on every exit path; its own failure is ignored by the
source (`defer` discards the error), so the final working directory is
`cwd` exactly when changing back succeeds.  A `chdir` effect is recorded
when the directory actually changes.  Result: (function result, effects,
final working directory). -/
def gitCommitAndPush (w : World) (cwd repoPath commitMessage : String) :
    Except String Unit × List Effect × String :=
  if w.getwdFails then
    (.error "failed to get current directory", [], cwd)
  else if w.chdirOk repoPath then
    let res := gitSteps w commitMessage
    if w.chdirOk cwd then
      (res.1, Effect.chdir repoPath :: res.2 ++ [Effect.chdir cwd], cwd)
    else
      (res.1, Effect.chdir repoPath :: res.2, repoPath)
  else
    (.error "failed to change directory", [], cwd)

/-- `main` from `main.go`: configuration (fatal), connect and ping
(fatal), create the output directory (fatal), compute the run date once,
process every view in order, then publish with git; every error path
prints and returns (`sql.Open`/`Ping` error details are opaque here).
Returns the effect trace of the run. -/
def mainRun (w : World) : List Effect :=
  match loadConfig w with
  | .error e => [Effect.print ("Error loading configuration: " ++ e)]
  | .ok config =>
    let connStr := "host=" ++ config.Host ++ " port=" ++ toString config.Port ++
      " user=" ++ config.User ++ " password=" ++ config.Password ++
      " dbname=" ++ config.DBName ++ " sslmode=" ++ config.SSLMode
    Effect.dbOpen connStr ::
    if !w.openOk then
      [Effect.print "Error connecting to database: open error"]
    else
      Effect.dbPing ::
      if !w.pingOk then
        [Effect.print "Error pinging database: ping error"]
      else
        Effect.print "Successfully connected to the database" ::
        Effect.mkdirAll config.OutputDir ::
        if !w.mkdirOk then
          [Effect.print "Error creating output directory: mkdir error"]
        else
          let currentDate := formatDate w.now
          let git := gitCommitAndPush w w.cwd config.OutputDir currentDate
          views.flatMap (processView w config.OutputDir currentDate) ++
          git.2.1 ++
          match git.1 with
          | .error e => [Effect.print ("Error with Git operations: " ++ e)]
          | .ok _ => [Effect.print "Data export and Git operations completed successfully"]

/-- The `exec` effects of a trace, in order. -/
def execList (tr : List Effect) : List (List String) :=
  tr.filterMap fun e =>
    match e with
    | .exec argv => some argv
    | _ => none

/-! ### Helper lemmas -/

theorem strDataInj {s t : String} (h : s.data = t.data) : s = t := by
  cases s
  cases t
  exact congrArg String.mk h

theorem strAppendData (a b : String) : (a ++ b).data = a.data ++ b.data :=
  String.data_append a b

theorem listStarts_self_append (p t : List Char) : listStarts p (p ++ t) = true := by
  induction p with
  | nil => rfl
  | cons c cs ih => simp [listStarts, ih]

theorem strStarts_self_append (s t : String) : strStarts s (s ++ t) = true := by
  unfold strStarts
  have h : (s ++ t).toList = s.toList ++ t.toList := String.data_append s t
  rw [h]
  exact listStarts_self_append s.toList t.toList

theorem listStarts_mono (p : List Char) :
    ∀ l r : List Char, listStarts p l = true → listStarts p (l ++ r) = true := by
  induction p with
  | nil => intro l r _; rfl
  | cons c cs ih =>
    intro l r h
    cases l with
    | nil => simp [listStarts] at h
    | cons d ds =>
      simp [listStarts] at h ⊢
      exact ⟨h.1, ih ds r h.2⟩

theorem strStarts_append_left (p a b : String) (h : strStarts p a = true) :
    strStarts p (a ++ b) = true := by
  unfold strStarts at h ⊢
  have hd : (a ++ b).toList = a.toList ++ b.toList := String.data_append a b
  rw [hd]
  exact listStarts_mono p.toList a.toList b.toList h

theorem viewPath_inj (dir v1 v2 : String) (h : viewPath dir v1 = viewPath dir v2) :
    v1 = v2 := by
  unfold viewPath at h
  have h' := congrArg String.data h
  simp only [strAppendData, List.append_assoc] at h'
  have h2 := List.append_cancel_left h'
  have h3 := List.append_cancel_left h2
  exact strDataInj (List.append_cancel_right h3)

theorem digitChar_isDigit (n : Nat) (h : n < 10) : (digitChar n).isDigit = true := by
  unfold digitChar
  interval_cases n <;> decide

theorem formatDate_shape (y m d : Nat) :
    isYMDShape (formatDate (y, m, d)) = true := by
  have h10 : ∀ k : Nat, k % 10 < 10 := fun k => Nat.mod_lt _ (by norm_num)
  simp [isYMDShape, formatDate, String.toList, digitChar_isDigit _ (h10 _)]

/-- The effects `gitCommitAndPush` may perform: working-directory changes,
sub-process invocations, and prints. -/
def scopedEffect : Effect → Bool
  | .chdir _ => true
  | .exec _ => true
  | .print _ => true
  | _ => false

theorem gitSteps_scoped (w : World) (msg : String) :
    ((gitSteps w msg).2.all scopedEffect) = true := by
  rcases hA : w.gitAdd with ⟨ba, oa⟩
  rcases hC : w.gitCommit with ⟨bc, oc⟩
  rcases hP : w.gitPush with ⟨bp, op⟩
  cases ba <;> cases bc <;> cases bp <;>
    simp [gitSteps, hA, hC, hP, scopedEffect] <;>
    cases strContains oc "nothing to commit" <;> simp [scopedEffect]

theorem gitCommitAndPush_scoped (w : World) (cwd repoPath msg : String) :
    ((gitCommitAndPush w cwd repoPath msg).2.1.all scopedEffect) = true := by
  unfold gitCommitAndPush
  have hs := gitSteps_scoped w msg
  cases hgw : w.getwdFails
  case true => simp
  case false =>
    cases hin : w.chdirOk repoPath
    case false => simp
    case true =>
      cases hoc : w.chdirOk cwd <;>
        simp [List.all_append, List.all_cons, scopedEffect, hs]

theorem mem_scoped_not_writeFile {tr : List Effect} (hall : tr.all scopedEffect = true)
    {p c : String} (h : Effect.writeFile p c ∈ tr) : False := by
  rw [List.all_eq_true] at hall
  have := hall _ h
  simp [scopedEffect] at this

theorem mem_scoped_not_exit {tr : List Effect} (hall : tr.all scopedEffect = true)
    {n : Nat} (h : Effect.exit n ∈ tr) : False := by
  rw [List.all_eq_true] at hall
  have := hall _ h
  simp [scopedEffect] at this

theorem addExportDate_render (v : Json) (date : String) :
    addExportDateToJSON (Json.render v) date =
      Json.render (Json.obj [("data", v), ("export_date", Json.str date)]) := by
  simp only [addExportDateToJSON, Json.render, renderFields, String.append_assoc]

theorem processView_write (w : World) (dir dt v p c : String)
    (h : Effect.writeFile p c ∈ processView w dir dt v) :
    p = viewPath dir v ∧
    ∃ raw, w.indentRes (addExportDateToJSON raw dt) = .ok c := by
  unfold processView at h
  rcases hq : w.query v with e | res
  · rw [hq] at h
    simp at h
  · rw [hq] at h
    cases hvr : w.validRaw (normalizeNull res)
    · simp [hvr] at h
    · rcases hi : w.indentRes (addExportDateToJSON (normalizeNull res) dt) with e | pretty
      · simp [hvr, hi] at h
      · cases hwr : w.writeOk (viewPath dir v)
        · simp [hvr, hi, hwr] at h
        · simp [hvr, hi, hwr] at h
          obtain ⟨hp, hc⟩ := h
          exact ⟨hp, normalizeNull res, by rw [hi, hc]⟩

theorem processView_no_exit (w : World) (dir dt v : String) (n : Nat)
    (h : Effect.exit n ∈ processView w dir dt v) : False := by
  unfold processView at h
  rcases hq : w.query v with e | res
  · rw [hq] at h
    simp at h
  · rw [hq] at h
    cases hvr : w.validRaw (normalizeNull res)
    · simp [hvr] at h
    · rcases hi : w.indentRes (addExportDateToJSON (normalizeNull res) dt) with e | pretty
      · simp [hvr, hi] at h
      · cases hwr : w.writeOk (viewPath dir v)
        · simp [hvr, hi, hwr] at h
        · simp [hvr, hi, hwr] at h

/-- A run where everything succeeds: `.env` provides `DB_PORT=5432` and
nothing else, every view is empty (NULL aggregate), `json.Indent` is the
identity, all filesystem and git operations succeed. -/
def wAllOk : World :=
  { dotenvRes := .ok fun k => if k = "DB_PORT" then some "5432" else none
    openOk := true
    pingOk := true
    mkdirOk := true
    now := (2026, 10, 11)
    query := fun _ => .ok none
    validRaw := fun _ => true
    indentRes := fun s => .ok s
    writeOk := fun _ => true
    getwdFails := false
    cwd := "/home/user"
    chdirOk := fun _ => true
    gitAdd := (true, "")
    gitCommit := (true, "")
    gitPush := (true, "") }

/-- Like `wAllOk`, but `git commit` exits non-zero with a
nothing-to-commit message. -/
def wNothingToCommit : World :=
  { wAllOk with gitCommit := (false, "On branch main\nnothing to commit, working tree clean") }

/-- Like `wAllOk`, but `DB_PORT` is unset everywhere. -/
def wNoPort : World :=
  { wAllOk with dotenvRes := .ok fun _ => none }

/-- Like `wAllOk`, but the first view's query fails. -/
def wOneFail : World :=
  { wAllOk with
    query := fun v =>
      if v = "hospital_seven_avg_change" then
        .error ("relation \"" ++ v ++ "\" does not exist")
      else .ok none }

theorem processView_write_mem (w : World) (dir dt v pretty : String) (res : Option String)
    (hq : w.query v = .ok res) (hvr : w.validRaw (normalizeNull res) = true)
    (hind : w.indentRes (addExportDateToJSON (normalizeNull res) dt) = .ok pretty)
    (hwr : w.writeOk (viewPath dir v) = true) :
    Effect.writeFile (viewPath dir v) pretty ∈ processView w dir dt v := by
  unfold processView
  rw [hq]
  simp [hvr, hind, hwr]

/-! ### Claims -/

/-- Claim C7: the Snapshot Writer embeds the raw JSON array verbatim into
the wrapper object: the bytes `addExportDateToJSON` produces for a
serialized value `v` are exactly the serialization of the document whose
`data` field is `v` itself and whose `export_date` field is the date, so
re-serializing the parsed document's `data` field reproduces the original
bytes, and the document's top-level keys are exactly `data` and
`export_date`. -/
theorem snapshot_wrapper_verbatim_roundtrip (v : Json) (date : String) :
    addExportDateToJSON (Json.render v) date =
      Json.render (Json.obj [("data", v), ("export_date", Json.str date)]) ∧
    Json.topKeys (Json.obj [("data", v), ("export_date", Json.str date)]) =
      ["data", "export_date"] ∧
    List.lookup "data" [("data", v), ("export_date", Json.str date)] = some v := by
  refine ⟨addExportDate_render v date, rfl, ?_⟩
  simp [List.lookup]

/-- Claim C5: when a view's aggregation query returns a database NULL
(no rows), the nil scan result is normalized to `[]`, the view's snapshot
is still written, and the exported document's `data` field is the empty
JSON array — never null and never absent. -/
theorem null_rows_export_empty_array (w : World) (dir date view pretty : String)
    (hq : w.query view = .ok none)
    (hvr : w.validRaw "[]" = true)
    (hind : w.indentRes (addExportDateToJSON "[]" date) = .ok pretty)
    (hwr : w.writeOk (viewPath dir view) = true) :
    normalizeNull none = "[]" ∧
    Effect.writeFile (viewPath dir view) pretty ∈ processView w dir date view ∧
    addExportDateToJSON "[]" date =
      Json.render (Json.obj [("data", Json.arr []), ("export_date", Json.str date)]) := by
  refine ⟨rfl, processView_write_mem w dir date view pretty none hq hvr hind hwr, ?_⟩
  have h0 : Json.render (Json.arr []) = "[]" := rfl
  have h := addExportDate_render (Json.arr []) date
  rw [h0] at h
  exact h

theorem null_rows_export_empty_array_witness :
    Effect.writeFile (viewPath "data_exports" "daily_wait_time_stats")
        (addExportDateToJSON "[]" "2026-10-11") ∈
      processView wAllOk "data_exports" "2026-10-11" "daily_wait_time_stats" :=
  (null_rows_export_empty_array wAllOk "data_exports" "2026-10-11" "daily_wait_time_stats"
    (addExportDateToJSON "[]" "2026-10-11") rfl rfl rfl rfl).2.1

/-- Claim C8: the Configuration Loader yields, for every field other than
the port, the documented default when the variable is unset and the set
value otherwise (host `localhost`, user `postgres`, password empty,
database `hospital_db`, SSL mode `disable`, output directory
`data_exports`), and a failed `.env` load is a fatal configuration
error. -/
theorem config_loader_defaults (w : World) (env : String → Option String) (port : Int)
    (hdot : w.dotenvRes = .ok env)
    (hport : Atoi (getenv env "DB_PORT") = .ok port) :
    loadConfig w = .ok
      { Host := getEnvWithDefault env "DB_HOST" "localhost"
        Port := port
        User := getEnvWithDefault env "DB_USER" "postgres"
        Password := getEnvWithDefault env "DB_PASSWORD" ""
        DBName := getEnvWithDefault env "DB_NAME" "hospital_db"
        SSLMode := getEnvWithDefault env "DB_SSLMODE" "disable"
        OutputDir := getEnvWithDefault env "OUTPUT_DIR" "data_exports" } ∧
    (∀ key d, env key = none → getEnvWithDefault env key d = d) ∧
    (∀ key d v, env key = some v → getEnvWithDefault env key d = v) ∧
    (∀ w2 : World, ∀ e, w2.dotenvRes = .error e →
      loadConfig w2 = .error ("error loading .env file: " ++ e)) := by
  refine ⟨?_, ?_, ?_, ?_⟩
  · simp [loadConfig, hdot, hport]
  · intro key d hnone
    simp [getEnvWithDefault, hnone]
  · intro key d v hsome
    simp [getEnvWithDefault, hsome]
  · intro w2 e he
    simp [loadConfig, he]

theorem config_loader_defaults_witness :
    loadConfig wAllOk = .ok
      { Host := "localhost", Port := 5432, User := "postgres", Password := "",
        DBName := "hospital_db", SSLMode := "disable", OutputDir := "data_exports" } :=
  (config_loader_defaults wAllOk
    (fun k => if k = "DB_PORT" then some "5432" else none) 5432 rfl rfl).1

/-- Claim C10: when the commit sub-process fails, the Publisher classifies
the outcome purely by a substring test on the combined output: it returns
success exactly when the output contains `"nothing to commit"`, it never
runs the push after a commit failure, and any commit failure whose output
lacks that substring is returned as a fatal error. -/
theorem commit_failure_substring_classification (w : World) (cwd repoPath msg out : String)
    (hgw : w.getwdFails = false) (hcd : w.chdirOk repoPath = true)
    (hadd : w.gitAdd.1 = true) (hcommit : w.gitCommit = (false, out)) :
    ((gitCommitAndPush w cwd repoPath msg).1 = .ok () ↔
      strContains out "nothing to commit" = true) ∧
    Effect.exec ["git", "push"] ∉ (gitCommitAndPush w cwd repoPath msg).2.1 ∧
    (strContains out "nothing to commit" = false →
      (gitCommitAndPush w cwd repoPath msg).1 =
        .error ("git commit failed, output: " ++ out)) := by
  rcases hA : w.gitAdd with ⟨ba, oa⟩
  rw [hA] at hadd
  simp at hadd
  subst hadd
  cases hnc : strContains out "nothing to commit" <;>
    cases hoc : w.chdirOk cwd <;>
      simp [gitCommitAndPush, gitSteps, hgw, hcd, hA, hcommit, hnc, hoc]

theorem commit_failure_substring_classification_witness :
    (gitCommitAndPush wNothingToCommit "/home/user" "data_exports" "2026-10-11").1 = .ok () ∧
    Effect.exec ["git", "push"] ∉
      (gitCommitAndPush wNothingToCommit "/home/user" "data_exports" "2026-10-11").2.1 := by
  have h := commit_failure_substring_classification wNothingToCommit "/home/user"
    "data_exports" "2026-10-11" "On branch main\nnothing to commit, working tree clean"
    rfl rfl rfl rfl
  exact ⟨h.1.mpr (by decide), h.2.1⟩

/-- Claim C1 counterexample: in a run where the commit tool exits
non-zero with a nothing-to-commit message — which the claim itself counts
as the Commit step terminating successfully — the Publisher returns
success but the Push step is never executed, refuting "whenever the
Commit step terminates successfully ... the Push step is subsequently
executed". -/
theorem push_skipped_on_nothing_to_commit :
    strContains "On branch main\nnothing to commit, working tree clean"
      "nothing to commit" = true ∧
    (gitCommitAndPush wNothingToCommit "/home/user" "data_exports" "2026-10-11").1 = .ok () ∧
    Effect.exec ["git", "push"] ∉
      (gitCommitAndPush wNothingToCommit "/home/user" "data_exports" "2026-10-11").2.1 :=
  ⟨by decide, rfl, by decide⟩

/-- Claim C1 (amended): the Publisher runs Stage, Commit, Push in that
fixed order, each step only when the previous one succeeded; the Push
step is executed exactly when the commit sub-process itself exits
successfully — in the nothing-to-commit case the Publisher terminates
successfully without pushing. -/
theorem publisher_fixed_step_order (w : World) (cwd repoPath msg : String)
    (hgw : w.getwdFails = false) (hcd : w.chdirOk repoPath = true) :
    execList (gitCommitAndPush w cwd repoPath msg).2.1 =
      [["git", "add", "."]] ++
      (if w.gitAdd.1 then
        [["git", "commit", "-m", "Data export " ++ msg]] ++
          (if w.gitCommit.1 then [["git", "push"]] else [])
      else []) := by
  rcases hA : w.gitAdd with ⟨ba, oa⟩
  rcases hC : w.gitCommit with ⟨bc, oc⟩
  rcases hP : w.gitPush with ⟨bp, op⟩
  cases ba <;> cases bc <;> cases bp <;>
    cases hoc : w.chdirOk cwd <;>
      simp [gitCommitAndPush, gitSteps, execList, hgw, hcd, hA, hC, hP, hoc,
        List.filterMap_cons, List.filterMap_append] <;>
      cases hnc : strContains oc "nothing to commit" <;> simp [hnc]

theorem publisher_fixed_step_order_witness :
    execList (gitCommitAndPush wAllOk "/home/user" "data_exports" "2026-10-11").2.1 =
      [["git", "add", "."], ["git", "commit", "-m", "Data export 2026-10-11"],
       ["git", "push"]] := by
  have h := publisher_fixed_step_order wAllOk "/home/user" "data_exports" "2026-10-11" rfl rfl
  simpa using h

/-- Claim C6: on every exit path reached after the Publisher has changed
into the repository directory, the deferred change back to the original
directory is the last effect and (when that change-back succeeds, the
error of the deferred call being ignored by the source) the final working
directory is the original one; and the Publisher performs only
directory-change, sub-process and print effects — the working directory
is the only process-global state it mutates. -/
theorem publisher_restores_working_directory (w : World) (cwd repoPath msg : String)
    (hgw : w.getwdFails = false) (hin : w.chdirOk repoPath = true)
    (hout : w.chdirOk cwd = true) :
    (gitCommitAndPush w cwd repoPath msg).2.2 = cwd ∧
    (gitCommitAndPush w cwd repoPath msg).2.1.getLast? = some (Effect.chdir cwd) ∧
    ((gitCommitAndPush w cwd repoPath msg).2.1.all scopedEffect) = true := by
  refine ⟨?_, ?_, gitCommitAndPush_scoped w cwd repoPath msg⟩
  · simp [gitCommitAndPush, hgw, hin, hout]
  · have h : (gitCommitAndPush w cwd repoPath msg).2.1 =
        (Effect.chdir repoPath :: (gitSteps w msg).2) ++ [Effect.chdir cwd] := by
      simp [gitCommitAndPush, hgw, hin, hout]
    rw [h, List.getLast?_concat]

theorem publisher_restores_working_directory_witness :
    (gitCommitAndPush wAllOk "/home/user" "data_exports" "2026-10-11").2.2 = "/home/user" ∧
    (gitCommitAndPush wAllOk "/home/user" "data_exports" "2026-10-11").2.1.getLast? =
      some (Effect.chdir "/home/user") := by
  have h := publisher_restores_working_directory wAllOk "/home/user" "data_exports"
    "2026-10-11" rfl rfl rfl
  exact ⟨h.1, h.2.1⟩

/-- Claim C2: whenever the effective `DB_PORT` value is absent or does not
parse as an integer (or the `.env` load itself fails), the run terminates
with a single printed configuration error and performs no database open,
no file write, and no directory creation. -/
theorem invalid_port_aborts_before_io (w : World)
    (h : ∀ env, w.dotenvRes = .ok env → ∃ e, Atoi (getenv env "DB_PORT") = .error e) :
    (∃ s, mainRun w = [Effect.print s] ∧
      strStarts "Error loading configuration: " s = true) ∧
    (∀ cs, Effect.dbOpen cs ∉ mainRun w) ∧
    (∀ p c, Effect.writeFile p c ∉ mainRun w) ∧
    (∀ d, Effect.mkdirAll d ∉ mainRun w) := by
  have hmain : ∃ t, mainRun w = [Effect.print ("Error loading configuration: " ++ t)] := by
    rcases hd : w.dotenvRes with e | env
    · exact ⟨"error loading .env file: " ++ e, by simp [mainRun, loadConfig, hd]⟩
    · obtain ⟨e, he⟩ := h env hd
      exact ⟨"invalid DB_PORT: " ++ e, by simp [mainRun, loadConfig, hd, he]⟩
  obtain ⟨t, ht⟩ := hmain
  rw [ht]
  refine ⟨⟨_, rfl, strStarts_self_append _ _⟩, ?_, ?_, ?_⟩ <;> simp

theorem invalid_port_aborts_before_io_witness :
    (∃ s, mainRun wNoPort = [Effect.print s] ∧
      strStarts "Error loading configuration: " s = true) ∧
    (∀ cs, Effect.dbOpen cs ∉ mainRun wNoPort) ∧
    (∀ p c, Effect.writeFile p c ∉ mainRun wNoPort) ∧
    (∀ d, Effect.mkdirAll d ∉ mainRun wNoPort) := by
  refine invalid_port_aborts_before_io wNoPort ?_
  intro env heq
  injection heq with h2
  subst h2
  exact ⟨_, rfl⟩

/-- The driver connection string `main` composes (line 73-74 of
`main.go`), for a successfully loaded configuration. -/
def connString (env : String → Option String) (port : Int) : String :=
  "host=" ++ getEnvWithDefault env "DB_HOST" "localhost" ++ " port=" ++ toString port ++
  " user=" ++ getEnvWithDefault env "DB_USER" "postgres" ++ " password=" ++
  getEnvWithDefault env "DB_PASSWORD" "" ++ " dbname=" ++
  getEnvWithDefault env "DB_NAME" "hospital_db" ++ " sslmode=" ++
  getEnvWithDefault env "DB_SSLMODE" "disable"

theorem mainRun_dotenvFail (w : World) (e : String) (hd : w.dotenvRes = .error e) :
    mainRun w =
      [Effect.print ("Error loading configuration: " ++ ("error loading .env file: " ++ e))] := by
  simp [mainRun, loadConfig, hd]

theorem mainRun_portFail (w : World) (env : String → Option String) (e : String)
    (hd : w.dotenvRes = .ok env) (hp : Atoi (getenv env "DB_PORT") = .error e) :
    mainRun w =
      [Effect.print ("Error loading configuration: " ++ ("invalid DB_PORT: " ++ e))] := by
  simp [mainRun, loadConfig, hd, hp]

theorem loadConfig_ok (w : World) (env : String → Option String) (port : Int)
    (hd : w.dotenvRes = .ok env) (hp : Atoi (getenv env "DB_PORT") = .ok port) :
    loadConfig w = .ok
      { Host := getEnvWithDefault env "DB_HOST" "localhost"
        Port := port
        User := getEnvWithDefault env "DB_USER" "postgres"
        Password := getEnvWithDefault env "DB_PASSWORD" ""
        DBName := getEnvWithDefault env "DB_NAME" "hospital_db"
        SSLMode := getEnvWithDefault env "DB_SSLMODE" "disable"
        OutputDir := getEnvWithDefault env "OUTPUT_DIR" "data_exports" } := by
  simp [loadConfig, hd, hp]

theorem mainRun_openFail (w : World) (env : String → Option String) (port : Int)
    (hd : w.dotenvRes = .ok env) (hp : Atoi (getenv env "DB_PORT") = .ok port)
    (hopen : w.openOk = false) :
    mainRun w = [Effect.dbOpen (connString env port),
      Effect.print "Error connecting to database: open error"] := by
  simp [mainRun, loadConfig_ok w env port hd hp, hopen, connString]

theorem mainRun_pingFail (w : World) (env : String → Option String) (port : Int)
    (hd : w.dotenvRes = .ok env) (hp : Atoi (getenv env "DB_PORT") = .ok port)
    (hopen : w.openOk = true) (hping : w.pingOk = false) :
    mainRun w = [Effect.dbOpen (connString env port), Effect.dbPing,
      Effect.print "Error pinging database: ping error"] := by
  simp [mainRun, loadConfig_ok w env port hd hp, hopen, hping, connString]

theorem mainRun_mkdirFail (w : World) (env : String → Option String) (port : Int)
    (hd : w.dotenvRes = .ok env) (hp : Atoi (getenv env "DB_PORT") = .ok port)
    (hopen : w.openOk = true) (hping : w.pingOk = true) (hmk : w.mkdirOk = false) :
    mainRun w = [Effect.dbOpen (connString env port), Effect.dbPing,
      Effect.print "Successfully connected to the database",
      Effect.mkdirAll (getEnvWithDefault env "OUTPUT_DIR" "data_exports"),
      Effect.print "Error creating output directory: mkdir error"] := by
  simp [mainRun, loadConfig_ok w env port hd hp, hopen, hping, hmk, connString]

theorem mainRun_success (w : World) (env : String → Option String) (port : Int)
    (hd : w.dotenvRes = .ok env) (hp : Atoi (getenv env "DB_PORT") = .ok port)
    (hopen : w.openOk = true) (hping : w.pingOk = true) (hmk : w.mkdirOk = true) :
    mainRun w =
      [Effect.dbOpen (connString env port), Effect.dbPing,
       Effect.print "Successfully connected to the database",
       Effect.mkdirAll (getEnvWithDefault env "OUTPUT_DIR" "data_exports")] ++
      views.flatMap (processView w (getEnvWithDefault env "OUTPUT_DIR" "data_exports")
        (formatDate w.now)) ++
      ((gitCommitAndPush w w.cwd (getEnvWithDefault env "OUTPUT_DIR" "data_exports")
          (formatDate w.now)).2.1 ++
        (match (gitCommitAndPush w w.cwd (getEnvWithDefault env "OUTPUT_DIR" "data_exports")
            (formatDate w.now)).1 with
          | .error e => [Effect.print ("Error with Git operations: " ++ e)]
          | .ok _ =>
            [Effect.print "Data export and Git operations completed successfully"])) := by
  simp [mainRun, loadConfig_ok w env port hd hp, hopen, hping, hmk, connString]

theorem getLast?_append_append {α : Type} (A B : List α) (x : α) :
    (A ++ (B ++ [x])).getLast? = some x := by
  rw [← List.append_assoc]
  exact List.getLast?_concat _

/-- Claim C9: on every path the run performs no `os.Exit` effect (so the
process exits with status 0 by returning from `main`), and the last
effect is always a print — an `Error`-prefixed message on every fatal
error path and the completion message on success; failure is observable
only through the printed text. -/
theorem errors_reported_by_print_only (w : World) :
    (∀ n, Effect.exit n ∉ mainRun w) ∧
    (∃ s, (mainRun w).getLast? = some (Effect.print s) ∧
      (strStarts "Error" s = true ∨
       s = "Data export and Git operations completed successfully")) := by
  rcases hd : w.dotenvRes with e | env
  · rw [mainRun_dotenvFail w e hd]
    exact ⟨by simp, ⟨_, rfl, Or.inl (strStarts_append_left _ _ _ (by decide))⟩⟩
  · rcases hp : Atoi (getenv env "DB_PORT") with e | port
    · rw [mainRun_portFail w env e hd hp]
      exact ⟨by simp, ⟨_, rfl, Or.inl (strStarts_append_left _ _ _ (by decide))⟩⟩
    · cases hopen : w.openOk
      · rw [mainRun_openFail w env port hd hp hopen]
        exact ⟨by simp, ⟨_, rfl, Or.inl (by decide)⟩⟩
      · cases hping : w.pingOk
        · rw [mainRun_pingFail w env port hd hp hopen hping]
          exact ⟨by simp, ⟨_, rfl, Or.inl (by decide)⟩⟩
        · cases hmk : w.mkdirOk
          · rw [mainRun_mkdirFail w env port hd hp hopen hping hmk]
            exact ⟨by simp, ⟨_, rfl, Or.inl (by decide)⟩⟩
          · have hm := mainRun_success w env port hd hp hopen hping hmk
            constructor
            · intro n hmem
              rw [hm] at hmem
              rw [List.mem_append, List.mem_append, List.mem_append] at hmem
              rcases hmem with (h4 | hflat) | hgit | hfin
              · simp at h4
              · obtain ⟨v, hv, hpv⟩ := List.mem_flatMap.mp hflat
                exact processView_no_exit w _ _ v n hpv
              · exact mem_scoped_not_exit (gitCommitAndPush_scoped w w.cwd _ _) hgit
              · rcases hr : (gitCommitAndPush w w.cwd
                    (getEnvWithDefault env "OUTPUT_DIR" "data_exports")
                    (formatDate w.now)).1 with e | u <;>
                  rw [hr] at hfin <;> simp at hfin
            · rw [hm]
              rcases hr : (gitCommitAndPush w w.cwd
                  (getEnvWithDefault env "OUTPUT_DIR" "data_exports")
                  (formatDate w.now)).1 with e | u
              · exact ⟨_, getLast?_append_append _ _ _,
                  Or.inl (strStarts_append_left _ _ _ (by decide))⟩
              · exact ⟨_, getLast?_append_append _ _ _, Or.inr rfl⟩

/-- Claim C3: every snapshot file written during a run is written for
exactly one of the three hardcoded views, at path
`<output_dir>/<view>.json`, with content obtained by pretty-printing a
document whose `export_date` is the run's single date stamp
`formatDate w.now`; and that stamp has the `YYYY-MM-DD` shape. -/
theorem snapshot_files_share_run_date (w : World) (p c : String)
    (hmem : Effect.writeFile p c ∈ mainRun w) :
    (∃ env view, w.dotenvRes = .ok env ∧ view ∈ views ∧
      p = viewPath (getEnvWithDefault env "OUTPUT_DIR" "data_exports") view ∧
      (∃ raw, w.indentRes (addExportDateToJSON raw (formatDate w.now)) = .ok c) ∧
      (∀ v2, p = viewPath (getEnvWithDefault env "OUTPUT_DIR" "data_exports") v2 →
        v2 = view)) ∧
    isYMDShape (formatDate w.now) = true := by
  refine ⟨?_, formatDate_shape w.now.1 w.now.2.1 w.now.2.2⟩
  rcases hd : w.dotenvRes with e | env
  · rw [mainRun_dotenvFail w e hd] at hmem
    simp at hmem
  · rcases hp : Atoi (getenv env "DB_PORT") with e | port
    · rw [mainRun_portFail w env e hd hp] at hmem
      simp at hmem
    · cases hopen : w.openOk
      · rw [mainRun_openFail w env port hd hp hopen] at hmem
        simp at hmem
      · cases hping : w.pingOk
        · rw [mainRun_pingFail w env port hd hp hopen hping] at hmem
          simp at hmem
        · cases hmk : w.mkdirOk
          · rw [mainRun_mkdirFail w env port hd hp hopen hping hmk] at hmem
            simp at hmem
          · rw [mainRun_success w env port hd hp hopen hping hmk] at hmem
            rw [List.mem_append, List.mem_append, List.mem_append] at hmem
            rcases hmem with (h4 | hflat) | hgit | hfin
            · simp at h4
            · obtain ⟨v, hv, hpv⟩ := List.mem_flatMap.mp hflat
              obtain ⟨hpath, raw, hind⟩ := processView_write w _ _ v p c hpv
              exact ⟨env, v, rfl, hv, hpath, ⟨raw, hind⟩,
                fun v2 heq => viewPath_inj _ v2 v (heq.symm.trans hpath)⟩
            · exact (mem_scoped_not_writeFile
                (gitCommitAndPush_scoped w w.cwd _ _) hgit).elim
            · rcases hr : (gitCommitAndPush w w.cwd
                  (getEnvWithDefault env "OUTPUT_DIR" "data_exports")
                  (formatDate w.now)).1 with e | u <;>
                rw [hr] at hfin <;> simp at hfin

theorem snapshot_files_share_run_date_witness :
    (∃ env view, wAllOk.dotenvRes = .ok env ∧ view ∈ views ∧
      "data_exports/hospital_seven_avg_change.json" =
        viewPath (getEnvWithDefault env "OUTPUT_DIR" "data_exports") view ∧
      (∃ raw, wAllOk.indentRes (addExportDateToJSON raw (formatDate wAllOk.now)) =
        .ok (addExportDateToJSON "[]" (formatDate (2026, 10, 11)))) ∧
      (∀ v2, "data_exports/hospital_seven_avg_change.json" =
          viewPath (getEnvWithDefault env "OUTPUT_DIR" "data_exports") v2 → v2 = view)) ∧
    isYMDShape (formatDate wAllOk.now) = true :=
  snapshot_files_share_run_date wAllOk
    "data_exports/hospital_seven_avg_change.json"
    (addExportDateToJSON "[]" (formatDate (2026, 10, 11)))
    (by decide)

/-- Claim C4: per-view failures are isolated — the loop processes every
view in the fixed list in order no matter what the per-view oracles do,
and any single view whose own query, validity check, formatting and
write all succeed gets its snapshot file written, regardless of failures
in any other view. -/
theorem per_view_failure_isolated (w : World) (env : String → Option String) (port : Int)
    (view pretty : String) (res : Option String)
    (hdot : w.dotenvRes = .ok env)
    (hport : Atoi (getenv env "DB_PORT") = .ok port)
    (hopen : w.openOk = true) (hping : w.pingOk = true) (hmk : w.mkdirOk = true)
    (hview : view ∈ views)
    (hq : w.query view = .ok res)
    (hvr : w.validRaw (normalizeNull res) = true)
    (hind : w.indentRes (addExportDateToJSON (normalizeNull res) (formatDate w.now)) =
      .ok pretty)
    (hwr : w.writeOk (viewPath (getEnvWithDefault env "OUTPUT_DIR" "data_exports") view) =
      true) :
    (∃ pre post, mainRun w = pre ++
      views.flatMap (processView w (getEnvWithDefault env "OUTPUT_DIR" "data_exports")
        (formatDate w.now)) ++ post) ∧
    Effect.writeFile (viewPath (getEnvWithDefault env "OUTPUT_DIR" "data_exports") view)
        pretty ∈ mainRun w := by
  have hm := mainRun_success w env port hdot hport hopen hping hmk
  constructor
  · exact ⟨_, _, hm⟩
  · rw [hm]
    have hpv := processView_write_mem w (getEnvWithDefault env "OUTPUT_DIR" "data_exports")
      (formatDate w.now) view pretty res hq hvr hind hwr
    rw [List.mem_append, List.mem_append]
    exact Or.inl (Or.inr (List.mem_flatMap.mpr ⟨view, hview, hpv⟩))

theorem per_view_failure_isolated_witness :
    wOneFail.query "hospital_seven_avg_change" =
      .error "relation \"hospital_seven_avg_change\" does not exist" ∧
    Effect.writeFile (viewPath "data_exports" "daily_wait_time_stats")
        (addExportDateToJSON "[]" (formatDate (2026, 10, 11))) ∈ mainRun wOneFail := by
  refine ⟨rfl, ?_⟩
  exact (per_view_failure_isolated wOneFail
    (fun k => if k = "DB_PORT" then some "5432" else none) 5432
    "daily_wait_time_stats" (addExportDateToJSON "[]" (formatDate (2026, 10, 11))) none
    rfl rfl rfl rfl rfl (by decide) rfl rfl rfl rfl).2
